import Mathlib

/-!
Verification of the core of the `rust_os` kernel: the interrupt-safe
scancode event queue (`src/task/keyboard.rs`), the boot-info frame
allocator (`src/memory.rs`), and the page-table mapping path
(`create_example_mapping` in `src/memory.rs`).

The embedding translates the Rust source into pure Lean functions over
explicit state. Scancodes (`u8`) and physical addresses (`u64`) are
modelled as `Nat`; overflow plays no role in any claim considered here.
-/

namespace RustOS

/-! ## Interrupt-safe event queue (`src/task/keyboard.rs`) -/

/-- Modelled from the spec: `crossbeam_queue::ArrayQueue<u8>` is a bounded
queue with fixed capacity; `push` fails (never overwrites, never blocks)
when the queue is full, and `pop` removes the oldest element (FIFO). -/
structure ArrayQueue where
  cap : Nat
  items : List Nat
deriving DecidableEq

/-- `ArrayQueue::push`: appends at the back if there is room, otherwise
fails (`none` models `Err(PushError)`); existing contents are untouched. -/
def ArrayQueue.push (q : ArrayQueue) (x : Nat) : Option ArrayQueue :=
  if q.items.length < q.cap then some ⟨q.cap, q.items ++ [x]⟩ else none

/-- `ArrayQueue::pop`: removes and returns the oldest element, or fails
(`none` models `Err(PopError)`) when the queue is empty. -/
def ArrayQueue.pop (q : ArrayQueue) : Option (Nat × ArrayQueue) :=
  match q.items with
  | [] => none
  | x :: xs => some (x, ⟨q.cap, xs⟩)

/-- The global state of `src/task/keyboard.rs`:
`SCANCODE_QUEUE : OnceCell<ArrayQueue<u8>>` (uninitialized = `none`) and
`WAKER : AtomicWaker` (the currently registered waker, if any; wakers are
identified by a `Nat` token). -/
structure KState where
  scancode_queue : Option ArrayQueue
  waker : Option Nat
deriving DecidableEq

/-- The diagnostics `add_scancode` can print. -/
inductive Diagnostic where
  | queueFull
  | queueUninitialized
deriving DecidableEq

/-- Result of one `add_scancode` call: the new global state, the
diagnostic printed (if any), and whether a registered waker was woken. -/
structure AddScancodeResult where
  state : KState
  diagnostic : Option Diagnostic
  woke : Bool
deriving DecidableEq

/-- `add_scancode` (keyboard.rs, lines 27–37): try to get the queue; if
uninitialized, print a warning and drop the code; otherwise push; if the
push fails (queue full), print a warning and drop the code; on success
call `WAKER.wake()`, which takes the registered waker (clearing it) and
wakes it if one was registered. -/
def add_scancode (s : KState) (code : Nat) : AddScancodeResult :=
  match s.scancode_queue with
  | none => ⟨s, some .queueUninitialized, false⟩
  | some q =>
    match q.push code with
    | none => ⟨s, some .queueFull, false⟩
    | some q' => ⟨⟨some q', none⟩, none, s.waker.isSome⟩

/-- Result of one `poll_next` call: the new global state and the polled
value (`some x` models `Poll::Ready(Some(x))`, `none` models
`Poll::Pending`; the stream never returns `Ready(None)`). -/
structure PollResult where
  state : KState
  value : Option Nat
deriving DecidableEq

/-- `ScancodeStream::poll_next` (keyboard.rs, lines 62–77), with the two
points at which the keyboard interrupt may fire made explicit: `gap1` is
an optional scancode published (via `add_scancode`) between the first pop
attempt and the waker registration, `gap2` one published between the
registration and the second pop attempt. The outer `none` models the
`expect("not initialized")` panic. The body: first `pop`; if a value is
available return it ready; otherwise `WAKER.register(cx.waker())`
(overwriting any previous registration), then `pop` again; on a value,
`WAKER.take()` (clearing the registration) and return it ready; otherwise
return pending. -/
def poll_next (s : KState) (w : Nat) (gap1 gap2 : Option Nat) : Option PollResult :=
  match s.scancode_queue with
  | none => none
  | some q =>
    match q.pop with
    | some (x, q') => some ⟨⟨some q', s.waker⟩, some x⟩
    | none =>
      let s1 := match gap1 with
        | some c => (add_scancode ⟨some q, s.waker⟩ c).state
        | none => ⟨some q, s.waker⟩
      let s2 : KState := ⟨s1.scancode_queue, some w⟩
      let s3 := match gap2 with
        | some c => (add_scancode s2 c).state
        | none => s2
      match s3.scancode_queue with
      | none => none
      | some q3 =>
        match q3.pop with
        | some (x, q') => some ⟨⟨some q', none⟩, some x⟩
        | none => some ⟨⟨some q3, s3.waker⟩, none⟩

/-- `ScancodeStream::new` (keyboard.rs, lines 81–85):
`SCANCODE_QUEUE.try_init_once(|| ArrayQueue::new(100))` initializes the
queue with capacity 100 if it is uninitialized; if it is already
initialized the attempt fails and the `expect` panics (`none`), leaving
the existing queue in place. -/
def ScancodeStream.new (s : KState) : Option KState :=
  match s.scancode_queue with
  | none => some ⟨some ⟨100, []⟩, s.waker⟩
  | some _ => none

/-- One step of `publishAll`: feed one code to `add_scancode`, keeping
the running count of diagnostics printed. -/
def publishStep (p : KState × Nat) (c : Nat) : KState × Nat :=
  let r := add_scancode p.1 c
  (r.state, p.2 + (if r.diagnostic.isSome then 1 else 0))

/-- Publish a whole list of scancodes through `add_scancode`, counting
the diagnostics printed along the way. -/
def publishAll (s : KState) (codes : List Nat) : KState × Nat :=
  codes.foldl publishStep (s, 0)

/-! ## Boot-info frame allocator (`src/memory.rs`) -/

/-- `bootloader::bootinfo::MemoryRegionType` (the variants relevant to
the allocator; every non-`usable` variant is filtered out alike). -/
inductive MemoryRegionType where
  | usable
  | inUse
  | reserved
  | acpiReclaimable
deriving DecidableEq

/-- A `bootloader::bootinfo::MemoryRegion`: a physical address range
(`start_addr()` inclusive, `end_addr()` exclusive) with a type. -/
structure MemoryRegion where
  startAddr : Nat
  endAddr : Nat
  regionType : MemoryRegionType
deriving DecidableEq

/-- Rust's `(start..stop).step_by(step)`: `start, start+step, ...` while
strictly below `stop`. -/
def stepBy (start stop step : Nat) : List Nat :=
  (List.range ((stop - start + step - 1) / step)).map (fun i => start + i * step)

/-- `PhysFrame::containing_address`: round a physical address down to its
4 KiB frame boundary. -/
def containing_address (a : Nat) : Nat := a / 4096 * 4096

/-- `BootInfoFrameAllocator` (memory.rs, lines 20–23): the memory map and
the bump cursor `next`. -/
structure BootInfoFrameAllocator where
  memory_map : List MemoryRegion
  next : Nat
deriving DecidableEq

/-- `BootInfoFrameAllocator::init` (memory.rs, lines 30–35). -/
def BootInfoFrameAllocator.init (m : List MemoryRegion) : BootInfoFrameAllocator :=
  ⟨m, 0⟩

/-- `BootInfoFrameAllocator::usable_frames` (memory.rs, lines 38–45):
filter the map to usable regions, turn each into its address range,
flatten stepping by 4096, and map each address to the frame containing
it. A frame is identified by its start address. -/
def usable_frames (m : List MemoryRegion) : List Nat :=
  (((m.filter (fun r => r.regionType == .usable)).map
      (fun r => stepBy r.startAddr r.endAddr 4096)).flatten).map containing_address

/-- `BootInfoFrameAllocator::allocate_frame` (memory.rs, lines 89–93):
return the `next`-th usable frame (if any) and advance the cursor by one
in every case. -/
def BootInfoFrameAllocator.allocate_frame (s : BootInfoFrameAllocator) :
    Option Nat × BootInfoFrameAllocator :=
  ((usable_frames s.memory_map)[s.next]?, ⟨s.memory_map, s.next + 1⟩)

/-- Run `n` consecutive `allocate_frame` calls, returning the final
allocator state. -/
def allocN (s : BootInfoFrameAllocator) : Nat → BootInfoFrameAllocator
  | 0 => s
  | n + 1 => (BootInfoFrameAllocator.allocate_frame (allocN s n)).2

/-! ## Address-space mapper (`create_example_mapping`, memory.rs 72–86)

`create_example_mapping` delegates to `Mapper::map_to` of the `x86_64`
crate, whose source is not part of this repository; the walk itself is
therefore modelled from the spec (§4.2). -/

/-- Page-table entry flags (presence and writability, the two used by the
mapper). -/
structure Flags where
  present : Bool
  writable : Bool
deriving DecidableEq

/-- A page-table entry: a physical frame address plus flags. -/
structure PTEntry where
  frame : Nat
  flags : Flags
deriving DecidableEq

/-- A page table: a finite partial map from entry index (0–511) to the
entry stored there; an index absent from the list is an unused (zeroed)
entry. -/
def PageTable := List (Nat × PTEntry)

instance : DecidableEq PageTable := by
  unfold PageTable
  infer_instance

/-- Physical memory as seen through the linear offset mapping: a finite
partial map from a table's physical frame address to its contents. -/
def PhysMem := List (Nat × PageTable)

instance : DecidableEq PhysMem := by
  unfold PhysMem
  infer_instance

/-- Lookup in a finite partial map (first binding wins). -/
def alookup {α : Type} : List (Nat × α) → Nat → Option α
  | [], _ => none
  | (k, v) :: rest, k' => if k = k' then some v else alookup rest k'

/-- Update/insert in a finite partial map, replacing any previous binding
for the key. -/
def ainsert {α : Type} : List (Nat × α) → Nat → α → List (Nat × α)
  | [], k, v => [(k, v)]
  | (k', v') :: rest, k, v =>
    if k' = k then (k, v) :: rest else (k', v') :: ainsert rest k v

/-- Index of a virtual page number into the level-`n` table: pages are
numbered so that each of the four levels takes 9 bits. -/
def pageIdx (page : Nat) (level : Nat) : Nat := page / 512 ^ (level - 1) % 512

/-- The errors the mapping walk can signal (`MapToError` of the `x86_64`
crate, restricted to the cases the spec names: a frame allocation failure
while creating an intermediate table, and an already-present leaf entry;
`corrupt` covers a walk through a table frame the offset mapping cannot
resolve, which a well-formed hierarchy never produces). -/
inductive MapError where
  | frameAllocationFailed
  | pageAlreadyMapped
  | corrupt
deriving DecidableEq

/-- Modelled from the spec (§4.2): one step of the downward walk. Look at
entry `idx` of the table at `tblAddr`; if it is present descend to the
frame it names; if it is absent, allocate a fresh frame from the frame
allocator (failing fatally if allocation fails), zero-fill it (an empty
table) and install it as a present+writable sub-table. Returns the
updated memory, the child table's frame address, and the allocator. -/
def descend (mem : PhysMem) (tblAddr idx : Nat) (alloc : BootInfoFrameAllocator) :
    Except MapError (PhysMem × Nat × BootInfoFrameAllocator) :=
  match alookup mem tblAddr with
  | none => .error .corrupt
  | some tbl =>
    match alookup tbl idx with
    | some e => .ok (mem, e.frame, alloc)
    | none =>
      match alloc.allocate_frame with
      | (none, _) => .error .frameAllocationFailed
      | (some f, alloc') =>
        let tbl' : PageTable := ainsert tbl idx ⟨f, ⟨true, true⟩⟩
        let mem' : PhysMem := ainsert (ainsert mem tblAddr tbl') f ([] : PageTable)
        .ok (mem', f, alloc')

/-- Modelled from the spec (§4.2): `Mapper::map_to(page, frame, flags,
frame_allocator)` on the active hierarchy rooted at `l4`. Walks the three
intermediate levels (creating missing tables on demand), then installs
`frame` with `flags` at the leaf — unless the leaf entry is already
present, which is a mapping conflict. On error the memory and allocator
reached so far are returned unchanged alongside the error. -/
def map_to (mem : PhysMem) (l4 : Nat) (page frame : Nat) (flags : Flags)
    (alloc : BootInfoFrameAllocator) :
    Except MapError Unit × PhysMem × BootInfoFrameAllocator :=
  match descend mem l4 (pageIdx page 4) alloc with
  | .error e => (.error e, mem, alloc)
  | .ok (mem1, a3, alloc1) =>
    match descend mem1 a3 (pageIdx page 3) alloc1 with
    | .error e => (.error e, mem1, alloc1)
    | .ok (mem2, a2, alloc2) =>
      match descend mem2 a2 (pageIdx page 2) alloc2 with
      | .error e => (.error e, mem2, alloc2)
      | .ok (mem3, a1, alloc3) =>
        match alookup mem3 a1 with
        | none => (.error .corrupt, mem3, alloc3)
        | some tbl =>
          match alookup tbl (pageIdx page 1) with
          | some _ => (.error .pageAlreadyMapped, mem3, alloc3)
          | none =>
            (.ok (), ainsert mem3 a1 (ainsert tbl (pageIdx page 1) ⟨frame, flags⟩), alloc3)

/-- Modelled from the spec (§4.2): `Translate::translate_page` — a
read-only walk of the hierarchy rooted at `l4`, yielding the leaf entry
(frame and flags) mapped for `page`, or `none` if any entry on the path
is absent. -/
def translate (mem : PhysMem) (l4 : Nat) (page : Nat) : Option PTEntry := do
  let t4 ← alookup mem l4
  let e4 ← alookup t4 (pageIdx page 4)
  let t3 ← alookup mem e4.frame
  let e3 ← alookup t3 (pageIdx page 3)
  let t2 ← alookup mem e3.frame
  let e2 ← alookup t2 (pageIdx page 2)
  let t1 ← alookup mem e2.frame
  alookup t1 (pageIdx page 1)

/-- `create_example_mapping` (memory.rs, lines 72–86): maps `page` to the
frame containing physical address `0xb8000` with flags
`PRESENT | WRITABLE`, and panics (`none`) if `map_to` fails. -/
def create_example_mapping (page : Nat) (mem : PhysMem) (l4 : Nat)
    (alloc : BootInfoFrameAllocator) : Option (PhysMem × BootInfoFrameAllocator) :=
  match map_to mem l4 page (containing_address 0xb8000) ⟨true, true⟩ alloc with
  | (.ok _, mem', alloc') => some (mem', alloc')
  | (.error _, _, _) => none

/-- The addresses of the four tables the walk for `page` visits, computed
by running the same three descends `map_to` runs; `none` when the walk
fails. Used to state path-disjointness hypotheses. -/
def walkPath (mem : PhysMem) (l4 : Nat) (page : Nat) (alloc : BootInfoFrameAllocator) :
    Option (Nat × Nat × Nat) :=
  match descend mem l4 (pageIdx page 4) alloc with
  | .error _ => none
  | .ok (mem1, a3, alloc1) =>
    match descend mem1 a3 (pageIdx page 3) alloc1 with
    | .error _ => none
    | .ok (mem2, a2, alloc2) =>
      match descend mem2 a2 (pageIdx page 2) alloc2 with
      | .error _ => none
      | .ok (_, a1, _) => some (a3, a2, a1)

/-- The four table addresses on the walk for `page` are pairwise
distinct (the hierarchy is a tree along this path). -/
def pathDistinct (mem : PhysMem) (l4 : Nat) (page : Nat)
    (alloc : BootInfoFrameAllocator) : Bool :=
  match walkPath mem l4 page alloc with
  | none => false
  | some (a3, a2, a1) =>
    decide (l4 ≠ a3) && decide (l4 ≠ a2) && decide (l4 ≠ a1) &&
    decide (a3 ≠ a2) && decide (a3 ≠ a1) && decide (a2 ≠ a1)

/-! ## Helper lemmas -/

/-- `add_scancode` never initializes or tears down the queue. -/
theorem add_scancode_preserves_init (s : KState) (c : Nat) :
    ((add_scancode s c).state).scancode_queue.isSome = s.scancode_queue.isSome := by
  cases hq : s.scancode_queue with
  | none => simp [add_scancode, hq]
  | some q => cases hp : q.push c <;> simp [add_scancode, hq, hp]

/-- Folding `publishStep` over a code list: the queue fills up to its
capacity with the oldest codes, and every code beyond capacity costs one
diagnostic. -/
theorem publishStep_fold (cap : Nat) (codes : List Nat) :
    ∀ (items : List Nat) (wk : Option Nat) (k : Nat), items.length ≤ cap →
    (codes.foldl publishStep (⟨some ⟨cap, items⟩, wk⟩, k)).1.scancode_queue
        = some ⟨cap, items ++ codes.take (cap - items.length)⟩ ∧
    (codes.foldl publishStep (⟨some ⟨cap, items⟩, wk⟩, k)).2
        = k + (codes.length - (cap - items.length)) := by
  induction codes with
  | nil => intro items wk k _; simp
  | cons c cs ih =>
    intro items wk k hle
    by_cases hfull : items.length < cap
    · have hstep : publishStep (⟨some ⟨cap, items⟩, wk⟩, k) c
          = (⟨some ⟨cap, items ++ [c]⟩, none⟩, k) := by
        simp [publishStep, add_scancode, ArrayQueue.push, hfull]
      have hlen : (items ++ [c]).length ≤ cap := by
        simp; omega
      obtain ⟨h1, h2⟩ := ih (items ++ [c]) none k hlen
      refine ⟨?_, ?_⟩
      · rw [List.foldl_cons, hstep, h1]
        have hd : cap - items.length = (cap - (items ++ [c]).length) + 1 := by
          simp; omega
        rw [hd, List.take_succ_cons]
        simp
      · rw [List.foldl_cons, hstep, h2]
        simp
        omega
    · have heq : items.length = cap := by omega
      have hstep : publishStep (⟨some ⟨cap, items⟩, wk⟩, k) c
          = (⟨some ⟨cap, items⟩, wk⟩, k + 1) := by
        simp [publishStep, add_scancode, ArrayQueue.push, hfull]
      obtain ⟨h1, h2⟩ := ih items wk (k + 1) hle
      refine ⟨?_, ?_⟩
      · rw [List.foldl_cons, hstep, h1]
        simp [heq]
      · rw [List.foldl_cons, hstep, h2]
        simp [heq]
        omega

/-! ## Claims about the event queue -/

/-- **C1.** One call to `poll_next` follows the two-phase protocol: if the
first pop finds a value it is returned ready at once (no registration
happens — the waker is left as it was); if the first pop finds the queue
empty, the waker is registered and the pop retried: a value found by the
second pop (here: published by an interrupt after the registration) is
returned ready with the registration cleared, and only if the second pop
also finds the queue empty does the poll return pending, with the waker
left registered. -/
theorem scancode_poll_two_phase (s : KState) (w : Nat) (q : ArrayQueue)
    (hq : s.scancode_queue = some q) :
    (∀ x xs, q.items = x :: xs →
      poll_next s w none none = some ⟨⟨some ⟨q.cap, xs⟩, s.waker⟩, some x⟩) ∧
    (q.items = [] →
      poll_next s w none none = some ⟨⟨some q, some w⟩, none⟩) ∧
    (∀ c, q.items = [] → 0 < q.cap →
      poll_next s w none (some c) = some ⟨⟨some ⟨q.cap, []⟩, none⟩, some c⟩) := by
  obtain ⟨cap, items⟩ := q
  refine ⟨?_, ?_, ?_⟩
  · intro x xs hx
    simp only at hx
    subst hx
    simp [poll_next, hq, ArrayQueue.pop]
  · intro hx
    simp only at hx
    subst hx
    simp [poll_next, hq, ArrayQueue.pop]
  · intro c hx hcap
    simp only at hx
    subst hx
    simp [poll_next, hq, ArrayQueue.pop, add_scancode, ArrayQueue.push, hcap]

/-- Witness for C1 at concrete states. -/
theorem scancode_poll_two_phase_witness :
    poll_next ⟨some ⟨100, [7, 8]⟩, some 4⟩ 9 none none
        = some ⟨⟨some ⟨100, [8]⟩, some 4⟩, some 7⟩ ∧
    poll_next ⟨some ⟨100, []⟩, some 4⟩ 9 none none
        = some ⟨⟨some ⟨100, []⟩, some 9⟩, none⟩ ∧
    poll_next ⟨some ⟨100, []⟩, some 4⟩ 9 none (some 5)
        = some ⟨⟨some ⟨100, []⟩, none⟩, some 5⟩ := by
  have h := scancode_poll_two_phase ⟨some ⟨100, [7, 8]⟩, some 4⟩ 9 ⟨100, [7, 8]⟩ rfl
  have h' := scancode_poll_two_phase ⟨some ⟨100, []⟩, some 4⟩ 9 ⟨100, []⟩ rfl
  exact ⟨h.1 7 [8] rfl, h'.2.1 rfl, h'.2.2 5 rfl (by decide)⟩

/-- **C2.** No missed wakeup: if the producer publishes a code exactly
between the consumer's first (empty) pop attempt and its second pop
attempt — at either side of the waker registration — that same poll call
still returns the code ready. -/
theorem scancode_no_missed_wakeup (s : KState) (w c cap : Nat)
    (hq : s.scancode_queue = some ⟨cap, []⟩) (hcap : 0 < cap) :
    poll_next s w (some c) none = some ⟨⟨some ⟨cap, []⟩, none⟩, some c⟩ ∧
    poll_next s w none (some c) = some ⟨⟨some ⟨cap, []⟩, none⟩, some c⟩ := by
  constructor <;>
    simp [poll_next, hq, ArrayQueue.pop, add_scancode, ArrayQueue.push, hcap]

/-- Witness for C2 at a concrete state. -/
theorem scancode_no_missed_wakeup_witness :
    poll_next ⟨some ⟨100, []⟩, none⟩ 3 (some 42) none
        = some ⟨⟨some ⟨100, []⟩, none⟩, some 42⟩ ∧
    poll_next ⟨some ⟨100, []⟩, none⟩ 3 none (some 42)
        = some ⟨⟨some ⟨100, []⟩, none⟩, some 42⟩ :=
  scancode_no_missed_wakeup ⟨some ⟨100, []⟩, none⟩ 3 42 100 rfl (by decide)

/-- **C4.** The producer's error handling: with the queue uninitialized a
diagnostic is reported and the code dropped (state unchanged); with the
queue full a diagnostic is reported and the new code dropped (state
unchanged, nothing overwritten); in every case the existing contents stay
as a prefix of the queue; and publishing capacity+5 = 105 codes into the
fresh capacity-100 queue retains exactly the oldest 100 and prints one
diagnostic per dropped code (5 in total). -/
theorem add_scancode_overflow_policy :
    (∀ s c, s.scancode_queue = none →
      add_scancode s c = ⟨s, some .queueUninitialized, false⟩) ∧
    (∀ s c q, s.scancode_queue = some q → q.cap ≤ q.items.length →
      add_scancode s c = ⟨s, some .queueFull, false⟩) ∧
    (∀ s c q, s.scancode_queue = some q →
      ∃ rest, ((add_scancode s c).state).scancode_queue = some ⟨q.cap, q.items ++ rest⟩) ∧
    (∀ s codes, s.scancode_queue = some ⟨100, []⟩ → codes.length = 105 →
      ((publishAll s codes).1).scancode_queue = some ⟨100, codes.take 100⟩ ∧
      (publishAll s codes).2 = 5) := by
  refine ⟨?_, ?_, ?_, ?_⟩
  · intro s c h
    simp [add_scancode, h]
  · intro s c q hq hfull
    obtain ⟨cap, items⟩ := q
    simp only at hfull
    simp [add_scancode, hq, ArrayQueue.push, Nat.not_lt.mpr hfull]
  · intro s c q hq
    obtain ⟨cap, items⟩ := q
    by_cases hroom : items.length < cap
    · exact ⟨[c], by simp [add_scancode, hq, ArrayQueue.push, hroom]⟩
    · exact ⟨[], by simp [add_scancode, hq, ArrayQueue.push, hroom]⟩
  · intro s codes hq hlen
    obtain ⟨sq, wk⟩ := s
    simp only at hq
    subst hq
    obtain ⟨h1, h2⟩ := publishStep_fold 100 codes [] wk 0 (by simp)
    unfold publishAll
    rw [h1, h2]
    simp [hlen]

/-- Witness for C4 at concrete states. -/
theorem add_scancode_overflow_policy_witness :
    add_scancode ⟨none, some 2⟩ 9
        = ⟨⟨none, some 2⟩, some .queueUninitialized, false⟩ ∧
    add_scancode ⟨some ⟨2, [4, 5]⟩, some 2⟩ 9
        = ⟨⟨some ⟨2, [4, 5]⟩, some 2⟩, some .queueFull, false⟩ ∧
    ((publishAll ⟨some ⟨100, []⟩, none⟩ (List.range 105)).1).scancode_queue
        = some ⟨100, (List.range 105).take 100⟩ ∧
    (publishAll ⟨some ⟨100, []⟩, none⟩ (List.range 105)).2 = 5 := by
  refine ⟨?_, ?_, ?_⟩
  · exact add_scancode_overflow_policy.1 ⟨none, some 2⟩ 9 rfl
  · exact add_scancode_overflow_policy.2.1 ⟨some ⟨2, [4, 5]⟩, some 2⟩ 9 ⟨2, [4, 5]⟩ rfl
      (by decide)
  · exact add_scancode_overflow_policy.2.2.2 ⟨some ⟨100, []⟩, none⟩ (List.range 105) rfl
      (by simp)

/-- **C5.** When the push succeeds (the queue is initialized and has
room), `add_scancode` appends the code, prints no diagnostic, and wakes
the registered wakeup handle exactly when one is registered (the wake
also clears the registration, as `AtomicWaker::wake` takes the waker). -/
theorem add_scancode_wakes (s : KState) (c : Nat) (q : ArrayQueue)
    (hq : s.scancode_queue = some q) (hroom : q.items.length < q.cap) :
    add_scancode s c = ⟨⟨some ⟨q.cap, q.items ++ [c]⟩, none⟩, none, s.waker.isSome⟩ := by
  obtain ⟨cap, items⟩ := q
  simp only at hroom
  simp [add_scancode, hq, ArrayQueue.push, hroom]

/-- Witness for C5 at a concrete state: with a waker registered, a
successful push wakes it. -/
theorem add_scancode_wakes_witness :
    add_scancode ⟨some ⟨100, [1]⟩, some 6⟩ 2
        = ⟨⟨some ⟨100, [1, 2]⟩, none⟩, none, true⟩ :=
  add_scancode_wakes ⟨some ⟨100, [1]⟩, some 6⟩ 2 ⟨100, [1]⟩ rfl (by decide)

/-- **C6.** `ScancodeStream::new` initializes the backing queue exactly
once, with fixed capacity 100 and no contents; a second construction
attempt during the process lifetime panics instead of creating or
replacing a queue. -/
theorem scancode_stream_new_once (s : KState) :
    (s.scancode_queue = none →
      ScancodeStream.new s = some ⟨some ⟨100, []⟩, s.waker⟩) ∧
    (∀ q, s.scancode_queue = some q → ScancodeStream.new s = none) := by
  constructor
  · intro h
    simp [ScancodeStream.new, h]
  · intro q h
    simp [ScancodeStream.new, h]

/-- Witness for C6 at concrete states. -/
theorem scancode_stream_new_once_witness :
    ScancodeStream.new ⟨none, some 1⟩ = some ⟨some ⟨100, []⟩, some 1⟩ ∧
    ScancodeStream.new ⟨some ⟨100, [3]⟩, some 1⟩ = none :=
  ⟨(scancode_stream_new_once ⟨none, some 1⟩).1 rfl,
   (scancode_stream_new_once ⟨some ⟨100, [3]⟩, some 1⟩).2 ⟨100, [3]⟩ rfl⟩

/-- **C9.** With the queue initialized, `poll_next` never hits its
`expect("not initialized")` panic (for any waker and any interrupt
interleaving); with the queue never initialized, polling panics rather
than returning pending. -/
theorem poll_next_initialized (s : KState) (w : Nat) (g1 g2 : Option Nat) :
    (s.scancode_queue.isSome → (poll_next s w g1 g2).isSome) ∧
    (s.scancode_queue = none → poll_next s w g1 g2 = none) := by
  constructor
  · intro hs
    obtain ⟨q, hq⟩ := Option.isSome_iff_exists.mp hs
    simp only [poll_next, hq]
    cases hp : q.pop with
    | some v => simp
    | none =>
      simp only
      have h3 : (match g2 with
          | some c => (add_scancode ⟨(match g1 with
              | some c1 => (add_scancode ⟨some q, s.waker⟩ c1).state
              | none => ⟨some q, s.waker⟩).scancode_queue, some w⟩ c).state
          | none => ⟨(match g1 with
              | some c1 => (add_scancode ⟨some q, s.waker⟩ c1).state
              | none => ⟨some q, s.waker⟩).scancode_queue, some w⟩).scancode_queue.isSome
          = true := by
        cases g1 with
        | none =>
          cases g2 with
          | none => simp
          | some c => simp [add_scancode_preserves_init]
        | some c1 =>
          cases g2 with
          | none => simp [add_scancode_preserves_init]
          | some c =>
            rw [add_scancode_preserves_init]
            simp [add_scancode_preserves_init]
      obtain ⟨q3, hq3⟩ := Option.isSome_iff_exists.mp h3
      rw [hq3]
      cases hp3 : q3.pop <;> simp [hp3]
  · intro h
    simp [poll_next, h]

/-- Witness for C9 at concrete states. -/
theorem poll_next_initialized_witness :
    (poll_next ⟨some ⟨100, []⟩, none⟩ 0 none none).isSome ∧
    poll_next ⟨none, none⟩ 0 none none = none :=
  ⟨(poll_next_initialized ⟨some ⟨100, []⟩, none⟩ 0 none none).1 rfl,
   (poll_next_initialized ⟨none, none⟩ 0 none none).2 rfl⟩

/-! ## Frame-allocator lemmas -/

/-- Mapping a function that fixes every element of a list is the
identity. -/
theorem map_eq_self {f : Nat → Nat} : ∀ {l : List Nat}, (∀ x ∈ l, f x = x) → l.map f = l
  | [], _ => rfl
  | x :: xs, h => by
    rw [List.map_cons, h x (by simp), map_eq_self (fun y hy => h y (by simp [hy]))]

/-- Round-down is the identity on 4 KiB-aligned addresses. -/
theorem containing_address_aligned (a : Nat) (h : a % 4096 = 0) :
    containing_address a = a := by
  unfold containing_address
  omega

/-- Every member of a 4096-step range lies between the range's bounds. -/
theorem stepBy_mem_bounds (s e x : Nat) (hx : x ∈ stepBy s e 4096) :
    s ≤ x ∧ x < e := by
  unfold stepBy at hx
  simp only [List.mem_map, List.mem_range] at hx
  obtain ⟨i, hi, rfl⟩ := hx
  omega

/-- Members of a 4096-step range inherit the start's alignment. -/
theorem stepBy_mem_aligned (s e x : Nat) (hs : s % 4096 = 0)
    (hx : x ∈ stepBy s e 4096) : x % 4096 = 0 := by
  unfold stepBy at hx
  simp only [List.mem_map, List.mem_range] at hx
  obtain ⟨i, _, rfl⟩ := hx
  omega

/-- A 4096-step range is strictly ascending. -/
theorem stepBy_pairwise (s e : Nat) : List.Pairwise (· < ·) (stepBy s e 4096) := by
  unfold stepBy
  rw [List.pairwise_map]
  exact (List.pairwise_lt_range _).imp (fun h => by omega)

/-- With usable regions 4 KiB-aligned and listed in ascending, disjoint
order, the usable-frame enumeration is strictly ascending. -/
theorem usable_frames_pairwise (m : List MemoryRegion)
    (hA : ∀ r ∈ m, r.regionType = .usable → r.startAddr % 4096 = 0)
    (hO : List.Pairwise (fun r1 r2 => r1.endAddr ≤ r2.startAddr)
      (m.filter (fun r => r.regionType == .usable))) :
    List.Pairwise (· < ·) (usable_frames m) := by
  unfold usable_frames
  have hmem : ∀ x ∈ ((m.filter (fun r => r.regionType == .usable)).map
      (fun r => stepBy r.startAddr r.endAddr 4096)).flatten,
      containing_address x = x := by
    intro x hx
    rw [List.mem_flatten] at hx
    obtain ⟨l, hl, hxl⟩ := hx
    rw [List.mem_map] at hl
    obtain ⟨r, hr, rfl⟩ := hl
    have hru : r.regionType = .usable := by
      have := (List.mem_filter.mp hr).2
      simpa using this
    exact containing_address_aligned x
      (stepBy_mem_aligned _ _ _ (hA r (List.mem_filter.mp hr).1 hru) hxl)
  rw [map_eq_self hmem, List.pairwise_flatten]
  constructor
  · intro l hl
    rw [List.mem_map] at hl
    obtain ⟨r, _, rfl⟩ := hl
    exact stepBy_pairwise _ _
  · rw [List.pairwise_map]
    refine hO.imp ?_
    intro r1 r2 h12 x hx y hy
    have h1 := stepBy_mem_bounds _ _ _ hx
    have h2 := stepBy_mem_bounds _ _ _ hy
    omega

/-- After `k` calls from a fresh allocator the state is the same map with
cursor `k`. -/
theorem allocN_state (m : List MemoryRegion) (k : Nat) :
    allocN (.init m) k = ⟨m, k⟩ := by
  induction k with
  | zero => rfl
  | succ n ih => simp [allocN, ih, BootInfoFrameAllocator.allocate_frame]

/-! ## Claims about the frame allocator -/

/-- **C3.** With the memory map's usable regions 4 KiB-aligned and listed
in ascending disjoint order: the usable-frame enumeration is strictly
ascending, the `(k+1)`-st `allocate_frame` call from a fresh allocator
returns exactly the `k`-th usable frame (hence the `N`-th successful call
returns the `N`-th frame in ascending address order), every call at or
beyond the supply's length returns `none`, and the cursor never
decreases. -/
theorem allocate_frame_nth_in_order (m : List MemoryRegion)
    (hA : ∀ r ∈ m, r.regionType = .usable → r.startAddr % 4096 = 0)
    (hO : List.Pairwise (fun r1 r2 => r1.endAddr ≤ r2.startAddr)
      (m.filter (fun r => r.regionType == .usable)))
    (k : Nat) :
    List.Pairwise (· < ·) (usable_frames m) ∧
    (BootInfoFrameAllocator.allocate_frame (allocN (.init m) k)).1
        = (usable_frames m)[k]? ∧
    ((usable_frames m).length ≤ k →
      (BootInfoFrameAllocator.allocate_frame (allocN (.init m) k)).1 = none) ∧
    (∀ a : BootInfoFrameAllocator, a.next ≤ (a.allocate_frame).2.next) := by
  refine ⟨usable_frames_pairwise m hA hO, ?_, ?_, ?_⟩
  · rw [allocN_state]
    rfl
  · intro hk
    rw [allocN_state]
    simp [BootInfoFrameAllocator.allocate_frame, List.getElem?_eq_none hk]
  · intro a
    simp [BootInfoFrameAllocator.allocate_frame]

/-- Witness for C3: a concrete three-region map (two usable regions of
two frames each, one reserved in between). -/
theorem allocate_frame_nth_in_order_witness :
    (BootInfoFrameAllocator.allocate_frame
      (allocN (.init [⟨4096, 12288, .usable⟩, ⟨12288, 20480, .reserved⟩,
        ⟨20480, 28672, .usable⟩]) 1)).1 = some 8192 ∧
    (BootInfoFrameAllocator.allocate_frame
      (allocN (.init [⟨4096, 12288, .usable⟩, ⟨12288, 20480, .reserved⟩,
        ⟨20480, 28672, .usable⟩]) 4)).1 = none := by
  have h1 := allocate_frame_nth_in_order
    [⟨4096, 12288, .usable⟩, ⟨12288, 20480, .reserved⟩, ⟨20480, 28672, .usable⟩]
    (by decide) (by decide) 1
  have h4 := allocate_frame_nth_in_order
    [⟨4096, 12288, .usable⟩, ⟨12288, 20480, .reserved⟩, ⟨20480, 28672, .usable⟩]
    (by decide) (by decide) 4
  refine ⟨?_, h4.2.2.1 (by decide)⟩
  rw [h1.2.1]
  decide

/-- **C10.** Every `allocate_frame` call — whether it returns a frame or
`none` — leaves the memory map untouched and changes only the cursor,
incrementing it by exactly one. -/
theorem allocate_frame_only_advances_cursor (a : BootInfoFrameAllocator) :
    (a.allocate_frame).2.memory_map = a.memory_map ∧
    (a.allocate_frame).2.next = a.next + 1 :=
  ⟨rfl, rfl⟩

/-! ## Address-space mapper lemmas -/

/-- Looking up the key just inserted yields the inserted value. -/
theorem alookup_ainsert_self {α : Type} (l : List (Nat × α)) (k : Nat) (v : α) :
    alookup (ainsert l k v) k = some v := by
  induction l with
  | nil => simp [ainsert, alookup]
  | cons p rest ih =>
    obtain ⟨k0, v0⟩ := p
    by_cases h0 : k0 = k
    · subst h0
      simp [ainsert, alookup]
    · simp [ainsert, alookup, h0, ih]

/-- Inserting at one key leaves lookups at every other key unchanged. -/
theorem alookup_ainsert_ne {α : Type} (l : List (Nat × α)) (k k' : Nat) (v : α)
    (h : k ≠ k') : alookup (ainsert l k v) k' = alookup l k' := by
  induction l with
  | nil => simp [ainsert, alookup, h]
  | cons p rest ih =>
    obtain ⟨k0, v0⟩ := p
    by_cases h0 : k0 = k
    · subst h0
      simp [ainsert, alookup, h]
    · simp [ainsert, alookup, h0, ih]

/-- Postcondition of a successful `descend` whose child differs from its
parent: the parent table's entry at `idx` now names the child's frame,
and every other frame's contents are untouched. -/
theorem descend_ok (mem : PhysMem) (tblAddr idx : Nat) (alloc : BootInfoFrameAllocator)
    (mem1 : PhysMem) (child : Nat) (alloc1 : BootInfoFrameAllocator)
    (h : descend mem tblAddr idx alloc = .ok (mem1, child, alloc1))
    (hne : child ≠ tblAddr) :
    (∃ tbl1 e, alookup mem1 tblAddr = some tbl1 ∧ alookup tbl1 idx = some e ∧
      e.frame = child) ∧
    (∀ k, k ≠ tblAddr → k ≠ child → alookup mem1 k = alookup mem k) := by
  unfold descend at h
  split at h
  · simp at h
  rename_i tbl ht
  split at h
  · rename_i e he
    simp only [Except.ok.injEq, Prod.mk.injEq] at h
    obtain ⟨rfl, rfl, rfl⟩ := h
    exact ⟨⟨tbl, e, ht, he, rfl⟩, fun k _ _ => rfl⟩
  rename_i he
  split at h
  · simp at h
  rename_i f alloc2 ha
  simp only [Except.ok.injEq, Prod.mk.injEq] at h
  obtain ⟨rfl, rfl, rfl⟩ := h
  refine ⟨⟨ainsert tbl idx ⟨f, ⟨true, true⟩⟩, ⟨f, ⟨true, true⟩⟩, ?_,
    alookup_ainsert_self _ _ _, rfl⟩, ?_⟩
  · rw [alookup_ainsert_ne _ _ _ _ hne]
    exact alookup_ainsert_self _ _ _
  · intro k hk1 hk2
    rw [alookup_ainsert_ne _ _ _ _ (Ne.symm hk2),
      alookup_ainsert_ne _ _ _ _ (Ne.symm hk1)]

/-! ## Claims about the address-space mapper -/

/-- **C8.** Whenever `map_to` succeeds (so in particular the page was
previously unmapped) and the four tables on the page's walk are pairwise
distinct frames, the leaf now holds exactly the caller-supplied physical
frame with exactly the caller-supplied flags: an immediate translation
query yields them. -/
theorem map_to_translates (mem : PhysMem) (l4 page frame : Nat) (flags : Flags)
    (alloc : BootInfoFrameAllocator) (mem' : PhysMem) (alloc' : BootInfoFrameAllocator)
    (h : map_to mem l4 page frame flags alloc = (.ok (), mem', alloc'))
    (hpath : pathDistinct mem l4 page alloc = true) :
    translate mem' l4 page = some ⟨frame, flags⟩ := by
  unfold map_to at h
  split at h
  · simp at h
  rename_i mem1 a3 alloc1 hd1
  split at h
  · simp at h
  rename_i mem2 a2 alloc2 hd2
  split at h
  · simp at h
  rename_i mem3 a1 alloc3 hd3
  split at h
  · simp at h
  rename_i t1 ht1
  split at h
  · simp at h
  rename_i hl
  simp only [Prod.mk.injEq, true_and] at h
  obtain ⟨h2, h3⟩ := h
  subst h2
  subst h3
  have hpd : (l4 ≠ a3 ∧ l4 ≠ a2 ∧ l4 ≠ a1) ∧ a3 ≠ a2 ∧ a3 ≠ a1 ∧ a2 ≠ a1 := by
    simp only [pathDistinct, walkPath, hd1, hd2, hd3, Bool.and_eq_true,
      decide_eq_true_eq] at hpath
    tauto
  obtain ⟨⟨h43, h42, h41⟩, h32, h31, h21⟩ := hpd
  obtain ⟨⟨T4, e4, hT4, he4, hf4⟩, -⟩ :=
    descend_ok _ _ _ _ _ _ _ hd1 (Ne.symm h43)
  obtain ⟨⟨T3, e3, hT3, he3, hf3⟩, hp2⟩ :=
    descend_ok _ _ _ _ _ _ _ hd2 (Ne.symm h32)
  obtain ⟨⟨T2, e2, hT2, he2, hf2⟩, hp3⟩ :=
    descend_ok _ _ _ _ _ _ _ hd3 (Ne.symm h21)
  have hm4 : alookup (ainsert mem3 a1
      (ainsert t1 (pageIdx page 1) ⟨frame, flags⟩)) l4 = some T4 := by
    rw [alookup_ainsert_ne _ _ _ _ (Ne.symm h41), hp3 l4 h42 h41,
      hp2 l4 h43 h42, hT4]
  have hm3 : alookup (ainsert mem3 a1
      (ainsert t1 (pageIdx page 1) ⟨frame, flags⟩)) a3 = some T3 := by
    rw [alookup_ainsert_ne _ _ _ _ (Ne.symm h31), hp3 a3 h32 h31, hT3]
  have hm2 : alookup (ainsert mem3 a1
      (ainsert t1 (pageIdx page 1) ⟨frame, flags⟩)) a2 = some T2 := by
    rw [alookup_ainsert_ne _ _ _ _ (Ne.symm h21), hT2]
  have hm1 : alookup (ainsert mem3 a1
      (ainsert t1 (pageIdx page 1) ⟨frame, flags⟩)) a1
      = some (ainsert t1 (pageIdx page 1) ⟨frame, flags⟩) :=
    alookup_ainsert_self _ _ _
  simp [translate, hm4, he4, hf4, hm3, he3, hf3, hm2, he2, hf2, hm1,
    alookup_ainsert_self]

/-- Witness for C8: an empty level-4 table at frame 1, three fresh frames
from a one-region map; mapping page 0 to frame 7 and translating it back
yields frame 7 with the supplied flags. -/
theorem map_to_translates_witness :
    translate (map_to [(1, ([] : PageTable))] 1 0 7 ⟨true, true⟩
      (.init [⟨4096, 16384, .usable⟩])).2.1 1 0 = some ⟨7, ⟨true, true⟩⟩ :=
  map_to_translates [(1, ([] : PageTable))] 1 0 7 ⟨true, true⟩
    (.init [⟨4096, 16384, .usable⟩])
    (map_to [(1, ([] : PageTable))] 1 0 7 ⟨true, true⟩
      (.init [⟨4096, 16384, .usable⟩])).2.1
    (map_to [(1, ([] : PageTable))] 1 0 7 ⟨true, true⟩
      (.init [⟨4096, 16384, .usable⟩])).2.2
    rfl (by decide)

/-- **C7.** Mapping a page whose leaf entry is already present is a
mapping conflict: `map_to` reports `pageAlreadyMapped` and leaves memory
(and the pre-existing mapping) unchanged, and `create_example_mapping`
panics; likewise, if the walk needs a fresh intermediate table but the
frame allocator is exhausted, `map_to` reports `frameAllocationFailed`
with memory unchanged and `create_example_mapping` panics. -/
theorem mapping_conflict_fatal (mem : PhysMem) (l4 page : Nat)
    (alloc : BootInfoFrameAllocator) :
    (∀ e, translate mem l4 page = some e →
      (∀ frame flags, map_to mem l4 page frame flags alloc
          = (.error .pageAlreadyMapped, mem, alloc)) ∧
      create_example_mapping page mem l4 alloc = none) ∧
    (∀ t4, alookup mem l4 = some t4 → alookup t4 (pageIdx page 4) = none →
      (usable_frames alloc.memory_map)[alloc.next]? = none →
      (∀ frame flags, map_to mem l4 page frame flags alloc
          = (.error .frameAllocationFailed, mem, alloc)) ∧
      create_example_mapping page mem l4 alloc = none) := by
  constructor
  · intro e htr
    simp only [translate, Option.bind_eq_bind, Option.bind_eq_some] at htr
    obtain ⟨t4, ht4, e4, he4, t3, ht3, e3, he3, t2, ht2, e2, he2, t1, ht1, hl⟩ := htr
    have hmap : ∀ frame flags, map_to mem l4 page frame flags alloc
        = (.error .pageAlreadyMapped, mem, alloc) := by
      intro frame flags
      simp [map_to, descend, ht4, he4, ht3, he3, ht2, he2, ht1, hl]
    exact ⟨hmap, by simp [create_example_mapping, hmap]⟩
  · intro t4 ht4 he4 hexh
    have hmap : ∀ frame flags, map_to mem l4 page frame flags alloc
        = (.error .frameAllocationFailed, mem, alloc) := by
      intro frame flags
      simp [map_to, descend, ht4, he4, BootInfoFrameAllocator.allocate_frame, hexh]
    exact ⟨hmap, by simp [create_example_mapping, hmap]⟩

/-- Witness for C7: a fully mapped page-0 path (conflict case) and an
empty level-4 table with an exhausted allocator (allocation-failure
case). -/
theorem mapping_conflict_fatal_witness :
    map_to [(1, [(0, ⟨2, ⟨true, true⟩⟩)]), (2, [(0, ⟨3, ⟨true, true⟩⟩)]),
        (3, [(0, ⟨4, ⟨true, true⟩⟩)]), (4, [(0, ⟨99, ⟨true, false⟩⟩)])] 1 0 7
        ⟨true, true⟩ (.init [])
      = (.error .pageAlreadyMapped,
        [(1, [(0, ⟨2, ⟨true, true⟩⟩)]), (2, [(0, ⟨3, ⟨true, true⟩⟩)]),
          (3, [(0, ⟨4, ⟨true, true⟩⟩)]), (4, [(0, ⟨99, ⟨true, false⟩⟩)])],
        .init []) ∧
    create_example_mapping 0 [(1, ([] : PageTable))] 1 (.init []) = none := by
  constructor
  · exact ((mapping_conflict_fatal _ 1 0 (.init [])).1 ⟨99, ⟨true, false⟩⟩
      (by decide)).1 7 ⟨true, true⟩
  · exact ((mapping_conflict_fatal [(1, ([] : PageTable))] 1 0 (.init [])).2
      ([] : PageTable) (by decide) (by decide) (by decide)).2

end RustOS
